import Mathlib

/-!
Shallow embedding of the amoCRM→Telegram webhook relay (`app.py`) and a
verification of the status-store and formatting claims against it.

The filesystem under `data/` is modelled as a function from file paths to
file contents; a file is either missing, unreadable/corrupt (any read of it
raises and is caught), or holds a well-formed statuses object.  `json.dump`
can raise as well; the `writeOk` flag of a save says whether the write
succeeds.  Python dicts are modelled as insertion-ordered association
lists; `datetime.now().isoformat()` is passed in as an explicit `now`
string.  Python string formatting is plain concatenation, and `str.strip`
is modelled by `pyStrip` below.
-/

namespace RaisWebhook

/-- One record of the per-scope status store: `{"name": …, "first_seen": …}`
with `last_updated` present only after a second write (`app.py` lines 66-73). -/
structure StatusRecord where
  name : String
  first_seen : String
  last_updated : Option String
deriving DecidableEq, Repr

/-- The JSON object persisted for one scope: a Python dict keyed by the
string form of the status id, modelled as an insertion-ordered association
list with unique keys. -/
abbrev Statuses := List (String × StatusRecord)

/-- Content of one path of the data directory: the file may be absent,
present but failing to read/parse, or present with a well-formed object. -/
inductive FileContent where
  | missing
  | corrupt
  | good (statuses : Statuses)
deriving DecidableEq, Repr

/-- The data directory: what each file path currently holds. -/
def FS := String → FileContent

/-- Python `statuses.get(key)` on the modelled dict. -/
def lookupStatus : Statuses → String → Option StatusRecord
  | [], _ => none
  | (k, v) :: rest, key => if k = key then some v else lookupStatus rest key

/-- Python `statuses[key] = record`: replace in place if the key exists,
else append (insertion order of a Python dict). -/
def setStatus : Statuses → String → StatusRecord → Statuses
  | [], key, v => [(key, v)]
  | (k, v') :: rest, key, v =>
    if k = key then (key, v) :: rest else (k, v') :: setStatus rest key v

/-- Python `str.strip()` restricted to ASCII whitespace, which is all the
formatter ever produces at the ends of a message. -/
def pyStrip (s : String) : String :=
  ⟨((s.data.dropWhile Char.isWhitespace).reverse.dropWhile Char.isWhitespace).reverse⟩

namespace DataManager

/-- Source `get_status_file_path` (app.py line 32): `os.path.join("data", f"lead_statuses_{scope_id}.json")`. -/
def get_status_file_path (scope_id : String) : String :=
  "data/lead_statuses_" ++ scope_id ++ ".json"

/-- Source `load_lead_statuses` (app.py line 37): returns the parsed file, `{}` when
the file does not exist, and `{}` when reading or parsing raises. -/
def load_lead_statuses (fs : FS) (scope_id : String) : Statuses :=
  match fs (get_status_file_path scope_id) with
  | .good m => m
  | .missing => []
  | .corrupt => []

/-- Source `save_lead_statuses` (app.py line 50): overwrites the scope's file with
the given object; when the write raises (`writeOk = false`) the error is
logged and the filesystem is left as it was. -/
def save_lead_statuses (fs : FS) (scope_id : String) (statuses : Statuses)
    (writeOk : Bool) : FS :=
  if writeOk then
    fun p => if p = get_status_file_path scope_id then .good statuses else fs p
  else fs

/-- Source `update_lead_status` (app.py line 61): load, insert a fresh
`{name, first_seen}` record for an unseen id or overwrite `name` and set
`last_updated` for a seen one, save, and return the resulting object.
`status_id_str` is Python's `str(status_id)` and `now` the
`datetime.now().isoformat()` value of this call. -/
def update_lead_status (fs : FS) (scope_id status_id_str status_name now : String)
    (writeOk : Bool) : Statuses × FS :=
  let statuses := load_lead_statuses fs scope_id
  let statuses' :=
    match lookupStatus statuses status_id_str with
    | none =>
      setStatus statuses status_id_str
        { name := status_name, first_seen := now, last_updated := none }
    | some r =>
      setStatus statuses status_id_str
        { name := status_name, first_seen := r.first_seen, last_updated := some now }
  (statuses', save_lead_statuses fs scope_id statuses' writeOk)

/-- Source `get_status_name` (app.py line 79): the stored name for `str(status_id)`,
falling back to `f"Статус {status_id}"`.  `status_id` is passed here already
in its string rendering, which is also what the f-string interpolates. -/
def get_status_name (fs : FS) (scope_id status_id : String) : String :=
  match lookupStatus (load_lead_statuses fs scope_id) status_id with
  | some r => r.name
  | none => "Статус " ++ status_id

end DataManager

/-- A JSON value usable as a status id: the payloads carry numeric ids
(`142`) but string ids occur as well; Python tests its truthiness and takes
`str(...)` of it. -/
inductive IdVal where
  | num (n : Int)
  | str (s : String)
deriving DecidableEq, Repr

/-- Python truthiness of an id value: `0` and `""` are falsy. -/
def IdVal.truthy : IdVal → Bool
  | .num n => n ≠ 0
  | .str s => s ≠ ""

/-- Python `str(...)` of an id value. -/
def IdVal.toStr : IdVal → String
  | .num n => toString n
  | .str s => s

/-- One lead record of the webhook payload, with only the keys the handler
reads.  An `Option` field is `none` exactly when the key is absent;
`add_marker` / `update_marker` are `"add" in lead` / `"update" in lead`.
`price` and `responsible_user_name` carry their f-string rendering. -/
structure Lead where
  add_marker : Bool := false
  update_marker : Bool := false
  name : Option String := none
  price : Option String := none
  responsible_user_name : Option String := none
  status_id : Option IdVal := none
  status_name : Option String := none
deriving DecidableEq, Repr

/-- One custom field of a contact record: its `code` and the f-string
renderings of the `value` entries of its `values` list. -/
structure CustomField where
  code : Option String := none
  values : List String := []
deriving DecidableEq, Repr

/-- One contact record of the webhook payload, with only the keys read by
`format_contact_message`. -/
structure Contact where
  name : Option String := none
  custom_fields : Option (List CustomField) := none
deriving DecidableEq, Repr

/-- Source `successful_status_ids` (app.py line 254). -/
def successful_status_ids : List String := ["142", "143"]

/-- Truthiness of `lead.get("status_id")` (app.py lines 135 and 252). -/
def leadStatusTruthy (lead : Lead) : Bool :=
  match lead.status_id with
  | some v => v.truthy
  | none => false

/-- Python `str(lead.get("status_id"))` (app.py line 258). -/
def leadStatusStr (lead : Lead) : String :=
  match lead.status_id with
  | some v => v.toStr
  | none => "None"

namespace AmoCRMHandler

/-- Source `format_lead_message` (app.py lines 106-147).  Returns the message text
together with the filesystem after the status-store write the formatter may
perform; `now` is the timestamp of that write and `writeOk` whether it
succeeds. -/
def format_lead_message (fs : FS) (lead : Lead) (event_type scope_id now : String)
    (writeOk : Bool) : String × FS :=
  let pair :=
    if event_type = "new" then ("📝", "Создана новая сделка")
    else if event_type = "update" then ("🔄", "Обновлена сделка")
    else if event_type = "success" then ("🎉", "Успешно реализованная сделка")
    else ("ℹ️", "Информация о сделке")
  let message := pair.1 ++ " <b>" ++ pair.2 ++ "</b>\n"
  let message := message ++ "Название: " ++ lead.name.getD "Без названия" ++ "\n"
  let message :=
    match lead.price with
    | some p => message ++ "Бюджет: " ++ p ++ " руб.\n"
    | none => message
  let message :=
    match lead.responsible_user_name with
    | some r => message ++ "Ответственный: " ++ r ++ "\n"
    | none => message
  match lead.status_id with
  | some sid =>
    if sid.truthy then
      match lead.status_name with
      | some sn =>
        let fs' := (DataManager.update_lead_status fs scope_id sid.toStr sn now writeOk).2
        let finalName :=
          if sn = "" then DataManager.get_status_name fs' scope_id sid.toStr else sn
        (pyStrip (message ++ "Статус: " ++ finalName ++ "\n"), fs')
      | none =>
        let finalName := DataManager.get_status_name fs scope_id sid.toStr
        (pyStrip (message ++ "Статус: " ++ finalName ++ "\n"), fs)
    else (pyStrip message, fs)
  | none => (pyStrip message, fs)

/-- The per-field step of the custom-fields loop of `format_contact_message`
(app.py lines 196-204): each PHONE-coded field appends its first value as a
phone line, each EMAIL-coded field its first value as an email line (the
`break` leaves only the inner `values` loop). -/
def contactFieldPart (f : CustomField) : String :=
  (if f.code = some "PHONE" then
    match f.values with
    | v :: _ => "Телефон: " ++ v ++ "\n"
    | [] => ""
  else "") ++
  (if f.code = some "EMAIL" then
    match f.values with
    | v :: _ => "Email: " ++ v ++ "\n"
    | [] => ""
  else "")

/-- Source `format_contact_message` (app.py lines 181-206). -/
def format_contact_message (contact : Contact) (event_type : String) : String :=
  let title := if event_type = "new" then "Создан новый контакт" else "Обновлен контакт"
  let message := "👤" ++ " <b>" ++ title ++ "</b>\n"
  let message := message ++ "Имя: " ++ contact.name.getD "Без имени" ++ "\n"
  let message :=
    match contact.custom_fields with
    | some fields => fields.foldl (fun acc f => acc ++ contactFieldPart f) message
    | none => message
  pyStrip message

end AmoCRMHandler

/-- The loop body of `process_leads` (app.py lines 245-269) for one lead
record: the event-kind decision and the resulting formatted message, if any.
The Telegram send is the out-of-scope sink; the message handed to it is the
first component, and the filesystem after any store write the second. -/
def process_lead (fs : FS) (lead : Lead) (scope_id now : String) (writeOk : Bool) :
    Option String × FS :=
  if lead.add_marker then
    let r := AmoCRMHandler.format_lead_message fs lead "new" scope_id now writeOk
    (some r.1, r.2)
  else if leadStatusTruthy lead then
    if successful_status_ids.contains (leadStatusStr lead) then
      let r := AmoCRMHandler.format_lead_message fs lead "success" scope_id now writeOk
      (some r.1, r.2)
    else
      let r := AmoCRMHandler.format_lead_message fs lead "update" scope_id now writeOk
      (some r.1, r.2)
  else if lead.update_marker then
    let r := AmoCRMHandler.format_lead_message fs lead "update" scope_id now writeOk
    (some r.1, r.2)
  else (none, fs)

/-- The event kinds a lead record can be classified into. -/
inductive LeadEvent where
  | new
  | success
  | update
  | nomsg
deriving DecidableEq, Repr

/-- The `event_type` string the dispatcher hands to the formatter for each
kind. -/
def LeadEvent.tag : LeadEvent → String
  | .new => "new"
  | .success => "success"
  | .update => "update"
  | .nomsg => ""

/-- The lead event-kind decision as the spec states it, for comparison with
`process_lead`: 1. "add" marker → new; 2. else truthy status id → success
when its string form is a configured successful id, update otherwise;
3. else "update" marker → update; 4. else no message. -/
def lead_event_kind (lead : Lead) : LeadEvent :=
  if lead.add_marker then .new
  else if leadStatusTruthy lead then
    if successful_status_ids.contains (leadStatusStr lead) then .success else .update
  else if lead.update_marker then .update
  else .nomsg

/-- A data directory with no files at all. -/
def fsEmpty : FS := fun _ => .missing

/-- Whether `pat` is an initial segment of the character list. -/
def isPre : List Char → List Char → Bool
  | [], _ => true
  | _ :: _, [] => false
  | p :: ps, a :: rest => if p = a then isPre ps rest else false

/-- How many positions of the character list start an occurrence of `pat`. -/
def countOccur (pat : List Char) : List Char → Nat
  | [] => 0
  | c :: rest => (if isPre pat (c :: rest) then 1 else 0) + countOccur pat rest

/-- The marker every phone line of a contact message starts with. -/
def phonePat : List Char := "Телефон:".data

/-- The marker every email line of a contact message starts with. -/
def emailPat : List Char := "Email:".data

/-- A string that cannot spoof a phone or email line: it contains neither
line marker. -/
abbrev cleanVal (s : String) : Prop :=
  countOccur phonePat s.data = 0 ∧ countOccur emailPat s.data = 0

/-- How many custom fields carry the given code together with at least one
value, i.e. how many get a line rendered for them. -/
def renderedCount (code : String) (fields : List CustomField) : Nat :=
  (fields.filter (fun f => f.code == some code && !f.values.isEmpty)).length

/-- The testable-property lead of the spec: `{"status_id": 142,
"status_name": "Won"}` with no markers. -/
def lead142 : Lead := { status_id := some (.num 142), status_name := some "Won" }

/-- A contact with two PHONE-coded custom fields. -/
def contactTwoPhones : Contact :=
  { name := some "A",
    custom_fields := some [ { code := some "PHONE", values := ["111", "222"] },
                            { code := some "PHONE", values := ["333"] } ] }

/-- The characters contributed by the custom-fields loop of
`format_contact_message`, field by field. -/
def fieldsData : List CustomField → List Char
  | [] => []
  | f :: rest => (AmoCRMHandler.contactFieldPart f).data ++ fieldsData rest

/-! ## Helper lemmas about the store model -/

theorem string_data_append (s t : String) : (s ++ t).data = s.data ++ t.data := rfl

theorem string_eq_of_data (s t : String) (h : s.data = t.data) : s = t := by
  cases s; cases t; exact congrArg String.mk h

/-- Distinct scopes address distinct files. -/
theorem get_status_file_path_inj {a b : String}
    (h : DataManager.get_status_file_path a = DataManager.get_status_file_path b) :
    a = b := by
  have hd := congrArg String.data h
  simp only [DataManager.get_status_file_path, string_data_append, List.append_assoc] at hd
  have h2 := List.append_cancel_left hd
  have h3 := List.append_cancel_right h2
  exact string_eq_of_data a b h3

theorem lookup_setStatus_self (m : Statuses) (k : String) (v : StatusRecord) :
    lookupStatus (setStatus m k v) k = some v := by
  induction m with
  | nil => simp [setStatus, lookupStatus]
  | cons hd tl ih =>
    obtain ⟨k', v'⟩ := hd
    by_cases h : k' = k
    · simp [setStatus, h, lookupStatus]
    · simp [setStatus, h, lookupStatus, ih]

theorem load_save_self (fs : FS) (S : String) (M : Statuses) :
    DataManager.load_lead_statuses (DataManager.save_lead_statuses fs S M true) S = M := by
  simp [DataManager.load_lead_statuses, DataManager.save_lead_statuses]

theorem load_after_save_other (fs : FS) (A B : String) (M : Statuses) (ok : Bool)
    (h : A ≠ B) :
    DataManager.load_lead_statuses (DataManager.save_lead_statuses fs A M ok) B
      = DataManager.load_lead_statuses fs B := by
  have hp : DataManager.get_status_file_path B ≠ DataManager.get_status_file_path A :=
    fun hc => h (get_status_file_path_inj hc).symm
  cases ok with
  | false => simp [DataManager.save_lead_statuses]
  | true => simp [DataManager.save_lead_statuses, DataManager.load_lead_statuses, hp]

/-! ## Claim theorems -/

/-- Claim C1: for every scope `S` and status id `I`, `update(S, I, "Foo")`
followed immediately by `update(S, I, "Bar")` yields a store whose record
for `I` has name `"Bar"`, a `first_seen` equal to the one after the first
call, and a `last_updated` field present. -/
theorem status_double_update (fs : FS) (S I n1 n2 : String) :
    ∃ r1 r2 : StatusRecord,
      lookupStatus (DataManager.update_lead_status fs S I "Foo" n1 true).1 I = some r1 ∧
      lookupStatus
        (DataManager.update_lead_status
          (DataManager.update_lead_status fs S I "Foo" n1 true).2 S I "Bar" n2 true).1 I
        = some r2 ∧
      r2.name = "Bar" ∧ r2.first_seen = r1.first_seen ∧ r2.last_updated = some n2 := by
  cases h : lookupStatus (DataManager.load_lead_statuses fs S) I with
  | none =>
    refine ⟨⟨"Foo", n1, none⟩, ⟨"Bar", n1, some n2⟩, ?_, ?_, rfl, rfl, rfl⟩
    · simp [DataManager.update_lead_status, h, lookup_setStatus_self]
    · simp [DataManager.update_lead_status, h, load_save_self, lookup_setStatus_self]
  | some r =>
    refine ⟨⟨"Foo", r.first_seen, some n1⟩, ⟨"Bar", r.first_seen, some n2⟩, ?_, ?_,
      rfl, rfl, rfl⟩
    · simp [DataManager.update_lead_status, h, lookup_setStatus_self]
    · simp [DataManager.update_lead_status, h, load_save_self, lookup_setStatus_self]

/-- Claim C2, counterexample: the fallback string for a never-written id is
the Russian `"Статус 7"`, not the claimed English `"Status 7"`. -/
theorem status_fallback_not_english :
    DataManager.get_status_name fsEmpty "acc" "7" = "Статус 7" ∧
    DataManager.get_status_name fsEmpty "acc" "7" ≠ "Status 7" := by
  constructor <;> decide

/-- Claim C2 as amended: for a status id never written for the scope,
`get_status_name` returns the fallback `"Статус " ++ I`, which embeds the
raw id; the function reads the store and never writes, so repeated calls
return the same string. -/
theorem status_fallback_unwritten (fs : FS) (S I : String)
    (h : lookupStatus (DataManager.load_lead_statuses fs S) I = none) :
    DataManager.get_status_name fs S I = "Статус " ++ I := by
  simp [DataManager.get_status_name, h]

/-- Witness for the amended claim C2 at a concrete scope and id. -/
theorem status_fallback_unwritten_witness :
    DataManager.get_status_name fsEmpty "acc" "7" = "Статус " ++ "7" :=
  status_fallback_unwritten fsEmpty "acc" "7" (by decide)

/-- Claim C3: an update for scope `A` leaves every other scope `B`
untouched: `load(B)` is unchanged, `get_name(B, I)` is unchanged, and when
`I` was never written for `B` it is still the fallback string. -/
theorem scope_isolation (fs : FS) (A B I X now : String) (ok : Bool) (hAB : A ≠ B) :
    DataManager.load_lead_statuses (DataManager.update_lead_status fs A I X now ok).2 B
      = DataManager.load_lead_statuses fs B ∧
    DataManager.get_status_name (DataManager.update_lead_status fs A I X now ok).2 B I
      = DataManager.get_status_name fs B I ∧
    (lookupStatus (DataManager.load_lead_statuses fs B) I = none →
      DataManager.get_status_name (DataManager.update_lead_status fs A I X now ok).2 B I
        = "Статус " ++ I) := by
  have h1 : DataManager.load_lead_statuses
      (DataManager.update_lead_status fs A I X now ok).2 B
      = DataManager.load_lead_statuses fs B := by
    simp only [DataManager.update_lead_status]
    exact load_after_save_other fs A B _ ok hAB
  refine ⟨h1, ?_, ?_⟩
  · simp [DataManager.get_status_name, h1]
  · intro h
    simp [DataManager.get_status_name, h1, h]

/-- Witness for claim C3 at concrete distinct scopes. -/
theorem scope_isolation_witness :
    DataManager.get_status_name
      (DataManager.update_lead_status fsEmpty "a" "7" "X" "t" true).2 "b" "7"
      = "Статус " ++ "7" :=
  (scope_isolation fsEmpty "a" "b" "7" "X" "t" true (by decide)).2.2 (by decide)

/-- Claim C4: a successful `save(S, M)` followed by `load(S)` returns a
mapping equal to `M`. -/
theorem save_load_round_trip (fs : FS) (S : String) (M : Statuses) :
    DataManager.load_lead_statuses (DataManager.save_lead_statuses fs S M true) S = M := by
  simp [DataManager.load_lead_statuses, DataManager.save_lead_statuses]

/-- Claim C7: when the scope's file is missing, or present but failing to
read or parse, `load_lead_statuses` returns the empty mapping instead of
raising. -/
theorem load_failure_empty (fs : FS) (S : String)
    (h : fs (DataManager.get_status_file_path S) = .missing ∨
         fs (DataManager.get_status_file_path S) = .corrupt) :
    DataManager.load_lead_statuses fs S = [] := by
  cases h with
  | inl h => simp [DataManager.load_lead_statuses, h]
  | inr h => simp [DataManager.load_lead_statuses, h]

/-- Witness for claim C7 on an empty data directory. -/
theorem load_failure_empty_witness :
    DataManager.load_lead_statuses fsEmpty "a" = [] :=
  load_failure_empty fsEmpty "a" (Or.inl rfl)

/-- Claim C8: when the persistence step of `update_lead_status` fails, the
failure is swallowed: the filesystem is left unchanged, yet the returned
in-memory mapping still contains the inserted/updated record for the id,
and equals the mapping a successful save would have returned. -/
theorem update_write_failure_swallowed (fs : FS) (S I N now : String) :
    (DataManager.update_lead_status fs S I N now false).2 = fs ∧
    (∃ r, lookupStatus (DataManager.update_lead_status fs S I N now false).1 I = some r ∧
      r.name = N) ∧
    (DataManager.update_lead_status fs S I N now false).1
      = (DataManager.update_lead_status fs S I N now true).1 := by
  refine ⟨?_, ?_, ?_⟩
  · simp [DataManager.update_lead_status, DataManager.save_lead_statuses]
  · cases h : lookupStatus (DataManager.load_lead_statuses fs S) I with
    | none =>
      exact ⟨⟨N, now, none⟩,
        by simp [DataManager.update_lead_status, h, lookup_setStatus_self], rfl⟩
    | some r =>
      exact ⟨⟨N, r.first_seen, some now⟩,
        by simp [DataManager.update_lead_status, h, lookup_setStatus_self], rfl⟩
  · simp [DataManager.update_lead_status]

/-- Claim C9: the record created by the first `update` for an id holds the
name, sets `first_seen`, and has no `last_updated`; a write for an already
present id keeps `first_seen` and sets `last_updated`. -/
theorem first_update_record_shape (fs : FS) (S I N now : String) (ok : Bool) :
    (lookupStatus (DataManager.load_lead_statuses fs S) I = none →
      lookupStatus (DataManager.update_lead_status fs S I N now ok).1 I
        = some { name := N, first_seen := now, last_updated := none }) ∧
    (∀ r, lookupStatus (DataManager.load_lead_statuses fs S) I = some r →
      lookupStatus (DataManager.update_lead_status fs S I N now ok).1 I
        = some { name := N, first_seen := r.first_seen, last_updated := some now }) := by
  constructor
  · intro h
    simp [DataManager.update_lead_status, h, lookup_setStatus_self]
  · intro r h
    simp [DataManager.update_lead_status, h, lookup_setStatus_self]

/-- Witness for claim C9 on an empty store. -/
theorem first_update_record_shape_witness :
    lookupStatus (DataManager.update_lead_status fsEmpty "s" "7" "N" "t" true).1 "7"
      = some { name := "N", first_seen := "t", last_updated := none } :=
  (first_update_record_shape fsEmpty "s" "7" "N" "t" true).1 (by decide)

/-- Claim C5: the dispatcher's event-kind decision for a lead follows the
spec precedence ("add" marker → new; else truthy status id → success iff
its string form is in `{"142", "143"}`, update otherwise; else "update"
marker → update; else no message), and the lead
`{"status_id": 142, "status_name": "Won"}` without an "add" marker produces
the 🎉 success message and writes `{"142": {"name": "Won", …}}` into the
scope's store. -/
theorem lead_dispatch_precedence (lead : Lead) (fs : FS) (scope now : String) (ok : Bool) :
    (process_lead fs lead scope now ok =
      match lead_event_kind lead with
      | .nomsg => (none, fs)
      | k =>
        (some (AmoCRMHandler.format_lead_message fs lead k.tag scope now ok).1,
         (AmoCRMHandler.format_lead_message fs lead k.tag scope now ok).2)) ∧
    (process_lead fsEmpty lead142 "42" "T1" true).1
      = some "🎉 <b>Успешно реализованная сделка</b>\nНазвание: Без названия\nСтатус: Won" ∧
    DataManager.load_lead_statuses (process_lead fsEmpty lead142 "42" "T1" true).2 "42"
      = [("142", { name := "Won", first_seen := "T1", last_updated := none })] := by
  refine ⟨?_, by decide, by decide⟩
  by_cases h1 : lead.add_marker
  · simp [process_lead, lead_event_kind, h1, LeadEvent.tag]
  · by_cases h2 : leadStatusTruthy lead
    · by_cases h3 : leadStatusStr lead ∈ successful_status_ids
      · simp [process_lead, lead_event_kind, h1, h2, h3, LeadEvent.tag]
      · simp [process_lead, lead_event_kind, h1, h2, h3, LeadEvent.tag]
    · by_cases h4 : lead.update_marker
      · simp [process_lead, lead_event_kind, h1, h2, h4, LeadEvent.tag]
      · simp [process_lead, lead_event_kind, h1, h2, h4, LeadEvent.tag]

/-- Claim C10: a lead whose `status_id` key holds a falsy value (0 or "")
behaves exactly as if it carried no status id: the dispatcher decision and
the formatted message are those of the id-free lead, the formatter performs
no store write, and with both markers absent no message is produced. -/
theorem falsy_status_id_ignored (lead : Lead) (v : IdVal) (fs : FS)
    (scope et now : String) (ok : Bool) (hv : v.truthy = false) :
    process_lead fs { lead with status_id := some v } scope now ok
      = process_lead fs { lead with status_id := none } scope now ok ∧
    AmoCRMHandler.format_lead_message fs { lead with status_id := some v } et scope now ok
      = AmoCRMHandler.format_lead_message fs { lead with status_id := none } et scope now ok ∧
    (AmoCRMHandler.format_lead_message fs { lead with status_id := some v } et scope now ok).2
      = fs ∧
    (lead.add_marker = false → lead.update_marker = false →
      process_lead fs { lead with status_id := some v } scope now ok = (none, fs)) := by
  have hfmt : ∀ et' : String,
      AmoCRMHandler.format_lead_message fs { lead with status_id := some v } et' scope now ok
        = AmoCRMHandler.format_lead_message fs { lead with status_id := none } et' scope
            now ok := by
    intro et'
    simp [AmoCRMHandler.format_lead_message, hv]
  refine ⟨?_, hfmt et, ?_, ?_⟩
  · simp [process_lead, leadStatusTruthy, hv, hfmt]
  · simp [AmoCRMHandler.format_lead_message, hv]
  · intro ha hu
    simp [process_lead, leadStatusTruthy, hv, ha, hu]

/-- Witness for claim C10: a lead with `status_id = 0` and no markers
produces no message and leaves the filesystem alone. -/
theorem falsy_status_id_ignored_witness :
    process_lead fsEmpty { status_id := some (.num 0) } "s" "t" true = (none, fsEmpty) :=
  (falsy_status_id_ignored { } (.num 0) fsEmpty "s" "u" "t" true (by decide)).2.2.2 rfl rfl

/-! ## Occurrence counting, used for the contact-formatting claim -/

theorem isPre_append_sep : ∀ (pat x z : List Char), '\n' ∉ pat →
    isPre pat (x ++ '\n' :: z) = isPre pat x := by
  intro pat
  induction pat with
  | nil => intro x z _; simp [isPre]
  | cons p ps ih =>
    intro x z hnl
    cases x with
    | nil =>
      have hp : p ≠ '\n' := fun h => hnl (h ▸ List.mem_cons_self p ps)
      simp [isPre, hp]
    | cons a xs =>
      have hnl' : '\n' ∉ ps := fun h => hnl (List.mem_cons_of_mem p h)
      by_cases hpa : p = a
      · simp [isPre, hpa, ih xs z hnl']
      · simp [isPre, hpa]

theorem countOccur_append_sep (pat : List Char) (hne : pat ≠ []) (hnl : '\n' ∉ pat) :
    ∀ x z : List Char,
      countOccur pat (x ++ '\n' :: z) = countOccur pat x + countOccur pat z := by
  intro x z
  induction x with
  | nil =>
    have h0 : isPre pat ('\n' :: z) = false := by
      cases pat with
      | nil => exact absurd rfl hne
      | cons p ps =>
        have hp : p ≠ '\n' := fun h => hnl (h ▸ List.mem_cons_self p ps)
        simp [isPre, hp]
    simp [countOccur, h0]
  | cons a xs ih =>
    have h1 : isPre pat (a :: (xs ++ '\n' :: z)) = isPre pat (a :: xs) := by
      simpa using isPre_append_sep pat (a :: xs) z hnl
    simp only [List.cons_append, countOccur, List.append_eq, h1, ih]
    omega

theorem countOccur_append_headfree (pat : List Char) (hne : pat ≠ []) :
    ∀ x y : List Char, (∀ c ∈ x, pat.head? ≠ some c) →
      countOccur pat (x ++ y) = countOccur pat y := by
  intro x y
  induction x with
  | nil => intro _; rfl
  | cons a xs ih =>
    intro h
    have ha : isPre pat (a :: (xs ++ y)) = false := by
      cases pat with
      | nil => exact absurd rfl hne
      | cons p ps =>
        have hpa : p ≠ a := fun hp => h a (List.mem_cons_self a xs) (by simp [hp])
        simp [isPre, hpa]
    simp [countOccur, ha, ih (fun c hc => h c (List.mem_cons_of_mem a hc))]

/-- A segment none of whose characters can open an occurrence contributes
nothing. -/
theorem countOccur_string_seg (pat : List Char) (hne : pat ≠ []) (s : String)
    (x : List Char) (h : ∀ c ∈ s.data, pat.head? ≠ some c) :
    countOccur pat (s.data ++ x) = countOccur pat x :=
  countOccur_append_headfree pat hne s.data x h

theorem isPre_append_ws : ∀ (pat x w : List Char), (∀ c ∈ pat, ¬ c.isWhitespace) →
    (∀ c ∈ w, c.isWhitespace) → isPre pat (x ++ w) = isPre pat x := by
  intro pat
  induction pat with
  | nil => intro x w _ _; simp [isPre]
  | cons p ps ih =>
    intro x w hpat hw
    cases x with
    | nil =>
      cases w with
      | nil => rfl
      | cons c cs =>
        have hpc : p ≠ c :=
          fun h => hpat p (List.mem_cons_self p ps) (h ▸ hw c (List.mem_cons_self c cs))
        simp [isPre, hpc]
    | cons a xs =>
      by_cases hpa : p = a
      · simp [isPre, hpa, ih xs w (fun c hc => hpat c (List.mem_cons_of_mem p hc)) hw]
      · simp [isPre, hpa]

theorem countOccur_allws (pat : List Char) (hne : pat ≠ [])
    (hpat : ∀ c ∈ pat, ¬ c.isWhitespace) :
    ∀ w : List Char, (∀ c ∈ w, c.isWhitespace) → countOccur pat w = 0 := by
  intro w
  induction w with
  | nil => intro _; rfl
  | cons c cs ih =>
    intro hw
    have hc : isPre pat (c :: cs) = false := by
      cases pat with
      | nil => exact absurd rfl hne
      | cons p ps =>
        have hpc : p ≠ c :=
          fun h => hpat p (List.mem_cons_self p ps) (h ▸ hw c (List.mem_cons_self c cs))
        simp [isPre, hpc]
    simp [countOccur, hc, ih (fun c' hc' => hw c' (List.mem_cons_of_mem c hc'))]

theorem countOccur_ws_right (pat : List Char) (hne : pat ≠ [])
    (hpat : ∀ c ∈ pat, ¬ c.isWhitespace) :
    ∀ x w : List Char, (∀ c ∈ w, c.isWhitespace) →
      countOccur pat (x ++ w) = countOccur pat x := by
  intro x w hw
  induction x with
  | nil => simpa [countOccur] using countOccur_allws pat hne hpat w hw
  | cons a xs ih =>
    have h1 : isPre pat (a :: (xs ++ w)) = isPre pat (a :: xs) := by
      simpa using isPre_append_ws pat (a :: xs) w hpat hw
    simp [countOccur, h1, ih]

theorem countOccur_ws_left (pat : List Char) (hne : pat ≠ [])
    (hpat : ∀ c ∈ pat, ¬ c.isWhitespace) (x w : List Char)
    (hw : ∀ c ∈ w, c.isWhitespace) :
    countOccur pat (w ++ x) = countOccur pat x := by
  refine countOccur_append_headfree pat hne w x ?_
  intro c hc
  cases pat with
  | nil => exact absurd rfl hne
  | cons p ps =>
    have hpc : p ≠ c := fun h => hpat p (List.mem_cons_self p ps) (h ▸ hw c hc)
    simp [hpc]

/-- Stripping via `pyStrip` does not change the number of occurrences of a pattern made
of non-whitespace characters. -/
theorem countOccur_pyStrip (pat : List Char) (hne : pat ≠ [])
    (hpat : ∀ c ∈ pat, ¬ c.isWhitespace) (s : String) :
    countOccur pat (pyStrip s).data = countOccur pat s.data := by
  have hdata : (pyStrip s).data
      = ((s.data.dropWhile Char.isWhitespace).reverse.dropWhile
          Char.isWhitespace).reverse := rfl
  set d1 := s.data.dropWhile Char.isWhitespace with hd1
  have h1 : countOccur pat s.data = countOccur pat d1 := by
    conv_lhs =>
      rw [show s.data = s.data.takeWhile Char.isWhitespace ++ d1 from
        (List.takeWhile_append_dropWhile Char.isWhitespace s.data).symm]
    exact countOccur_ws_left pat hne hpat d1 _ (fun c hc => List.mem_takeWhile_imp hc)
  have hrev : d1 = (d1.reverse.dropWhile Char.isWhitespace).reverse
      ++ (d1.reverse.takeWhile Char.isWhitespace).reverse := by
    conv_lhs => rw [← List.reverse_reverse d1]
    rw [← List.reverse_append, List.takeWhile_append_dropWhile]
  have h2 : countOccur pat d1
      = countOccur pat (d1.reverse.dropWhile Char.isWhitespace).reverse := by
    conv_lhs => rw [hrev]
    exact countOccur_ws_right pat hne hpat _ _
      (fun c hc => List.mem_takeWhile_imp (List.mem_reverse.mp hc))
  rw [hdata, h1, h2]

/-- Each rendered phone chunk opens exactly one occurrence of the phone
marker, at its start. -/
theorem count_phone_chunk (x : List Char) :
    countOccur phonePat ("Телефон: ".data ++ x) = 1 + countOccur phonePat x := by
  simp +decide [phonePat, countOccur, isPre]

/-- Each rendered email chunk opens exactly one occurrence of the email
marker, at its start. -/
theorem count_email_chunk (x : List Char) :
    countOccur emailPat ("Email: ".data ++ x) = 1 + countOccur emailPat x := by
  simp +decide [emailPat, countOccur, isPre]

theorem foldl_contactFieldPart_data : ∀ (fields : List CustomField) (init : String),
    (fields.foldl (fun acc f => acc ++ AmoCRMHandler.contactFieldPart f) init).data
      = init.data ++ fieldsData fields := by
  intro fields
  induction fields with
  | nil => intro init; simp [fieldsData]
  | cons f rest ih =>
    intro init
    simp [List.foldl_cons, ih, fieldsData, string_data_append, List.append_assoc]

/-- The custom-fields loop renders one phone line per PHONE-coded field
with at least one value, and one email line per such EMAIL-coded field. -/
theorem fieldsData_count : ∀ fields : List CustomField,
    (∀ f ∈ fields, ∀ v ∈ f.values.take 1, cleanVal v) →
    countOccur phonePat (fieldsData fields) = renderedCount "PHONE" fields ∧
    countOccur emailPat (fieldsData fields) = renderedCount "EMAIL" fields := by
  intro fields
  induction fields with
  | nil => intro _; simp [fieldsData, renderedCount, countOccur]
  | cons f rest ih =>
    intro hvals
    obtain ⟨ihP, ihE⟩ := ih (fun g hg v hv => hvals g (List.mem_cons_of_mem f hg) v hv)
    rcases f with ⟨code, values⟩
    by_cases hph : code = some "PHONE"
    · subst hph
      cases values with
      | nil =>
        simpa [fieldsData, AmoCRMHandler.contactFieldPart, renderedCount] using ⟨ihP, ihE⟩
      | cons v vs =>
        have hv : cleanVal v := by
          refine hvals ⟨some "PHONE", v :: vs⟩ (List.mem_cons_self _ _) v ?_
          simp
        have e1 : fieldsData (⟨some "PHONE", v :: vs⟩ :: rest)
            = "Телефон: ".data ++ (v.data ++ '\n' :: fieldsData rest) := by
          simp [fieldsData, AmoCRMHandler.contactFieldPart, string_data_append,
            List.append_assoc]
        rw [e1]
        constructor
        · rw [count_phone_chunk,
            countOccur_append_sep phonePat (by decide) (by decide) v.data (fieldsData rest),
            hv.1, ihP]
          simp [renderedCount]
          omega
        · rw [countOccur_string_seg emailPat (by decide) "Телефон: " _ (by decide),
            countOccur_append_sep emailPat (by decide) (by decide) v.data (fieldsData rest),
            hv.2, ihE]
          simp [renderedCount]
    · by_cases hem : code = some "EMAIL"
      · subst hem
        cases values with
        | nil =>
          simpa [fieldsData, AmoCRMHandler.contactFieldPart, renderedCount] using ⟨ihP, ihE⟩
        | cons v vs =>
          have hv : cleanVal v := by
            refine hvals ⟨some "EMAIL", v :: vs⟩ (List.mem_cons_self _ _) v ?_
            simp
          have e1 : fieldsData (⟨some "EMAIL", v :: vs⟩ :: rest)
              = "Email: ".data ++ (v.data ++ '\n' :: fieldsData rest) := by
            simp [fieldsData, AmoCRMHandler.contactFieldPart, string_data_append,
              List.append_assoc]
          rw [e1]
          constructor
          · rw [countOccur_string_seg phonePat (by decide) "Email: " _ (by decide),
              countOccur_append_sep phonePat (by decide) (by decide) v.data (fieldsData rest),
              hv.1, ihP]
            simp [renderedCount]
          · rw [count_email_chunk,
              countOccur_append_sep emailPat (by decide) (by decide) v.data (fieldsData rest),
              hv.2, ihE]
            simp [renderedCount]
            omega
      · have e1 : fieldsData (⟨code, values⟩ :: rest) = fieldsData rest := by
          simp [fieldsData, AmoCRMHandler.contactFieldPart, hph, hem]
        rw [e1]
        have eP : renderedCount "PHONE" (⟨code, values⟩ :: rest)
            = renderedCount "PHONE" rest := by
          simp [renderedCount, List.filter_cons, beq_iff_eq, hph]
        have eE : renderedCount "EMAIL" (⟨code, values⟩ :: rest)
            = renderedCount "EMAIL" rest := by
          simp [renderedCount, List.filter_cons, beq_iff_eq, hem]
        rw [eP, eE]
        exact ⟨ihP, ihE⟩

/-- Phone- and email-line counts of a fully assembled contact message. -/
theorem count_contact_message (et nm : String) (fields : List CustomField)
    (hnm : cleanVal nm)
    (hvals : ∀ f ∈ fields, ∀ v ∈ f.values.take 1, cleanVal v) :
    countOccur phonePat
        (pyStrip (fields.foldl (fun acc f => acc ++ AmoCRMHandler.contactFieldPart f)
          (("👤" ++ " <b>"
              ++ (if et = "new" then "Создан новый контакт" else "Обновлен контакт")
              ++ "</b>\n") ++ "Имя: " ++ nm ++ "\n"))).data
      = renderedCount "PHONE" fields ∧
    countOccur emailPat
        (pyStrip (fields.foldl (fun acc f => acc ++ AmoCRMHandler.contactFieldPart f)
          (("👤" ++ " <b>"
              ++ (if et = "new" then "Создан новый контакт" else "Обновлен контакт")
              ++ "</b>\n") ++ "Имя: " ++ nm ++ "\n"))).data
      = renderedCount "EMAIL" fields := by
  obtain ⟨hcP, hcE⟩ := fieldsData_count fields hvals
  constructor
  · rw [countOccur_pyStrip phonePat (by decide) (by decide), foldl_contactFieldPart_data]
    simp only [string_data_append, List.append_assoc]
    by_cases het : et = "new"
    · rw [if_pos het,
        countOccur_string_seg phonePat (by decide) "👤" _ (by decide),
        countOccur_string_seg phonePat (by decide) " <b>" _ (by decide),
        countOccur_string_seg phonePat (by decide) "Создан новый контакт" _ (by decide),
        countOccur_string_seg phonePat (by decide) "</b>\n" _ (by decide),
        countOccur_string_seg phonePat (by decide) "Имя: " _ (by decide),
        show "\n".data ++ fieldsData fields = '\n' :: fieldsData fields from rfl,
        countOccur_append_sep phonePat (by decide) (by decide) nm.data (fieldsData fields),
        hnm.1, hcP]
      omega
    · rw [if_neg het,
        countOccur_string_seg phonePat (by decide) "👤" _ (by decide),
        countOccur_string_seg phonePat (by decide) " <b>" _ (by decide),
        countOccur_string_seg phonePat (by decide) "Обновлен контакт" _ (by decide),
        countOccur_string_seg phonePat (by decide) "</b>\n" _ (by decide),
        countOccur_string_seg phonePat (by decide) "Имя: " _ (by decide),
        show "\n".data ++ fieldsData fields = '\n' :: fieldsData fields from rfl,
        countOccur_append_sep phonePat (by decide) (by decide) nm.data (fieldsData fields),
        hnm.1, hcP]
      omega
  · rw [countOccur_pyStrip emailPat (by decide) (by decide), foldl_contactFieldPart_data]
    simp only [string_data_append, List.append_assoc]
    by_cases het : et = "new"
    · rw [if_pos het,
        countOccur_string_seg emailPat (by decide) "👤" _ (by decide),
        countOccur_string_seg emailPat (by decide) " <b>" _ (by decide),
        countOccur_string_seg emailPat (by decide) "Создан новый контакт" _ (by decide),
        countOccur_string_seg emailPat (by decide) "</b>\n" _ (by decide),
        countOccur_string_seg emailPat (by decide) "Имя: " _ (by decide),
        show "\n".data ++ fieldsData fields = '\n' :: fieldsData fields from rfl,
        countOccur_append_sep emailPat (by decide) (by decide) nm.data (fieldsData fields),
        hnm.2, hcE]
      omega
    · rw [if_neg het,
        countOccur_string_seg emailPat (by decide) "👤" _ (by decide),
        countOccur_string_seg emailPat (by decide) " <b>" _ (by decide),
        countOccur_string_seg emailPat (by decide) "Обновлен контакт" _ (by decide),
        countOccur_string_seg emailPat (by decide) "</b>\n" _ (by decide),
        countOccur_string_seg emailPat (by decide) "Имя: " _ (by decide),
        show "\n".data ++ fieldsData fields = '\n' :: fieldsData fields from rfl,
        countOccur_append_sep emailPat (by decide) (by decide) nm.data (fieldsData fields),
        hnm.2, hcE]
      omega

/-- Claim C6, counterexample: a contact with two PHONE-coded custom fields
gets two phone lines (one per field, each with that field's first value),
refuting "at most one phone line". -/
theorem contact_one_phone_line_refuted :
    AmoCRMHandler.format_contact_message contactTwoPhones "new"
      = "👤 <b>Создан новый контакт</b>\nИмя: A\nТелефон: 111\nТелефон: 333" ∧
    ¬ countOccur phonePat
        (AmoCRMHandler.format_contact_message contactTwoPhones "new").data ≤ 1 := by
  constructor <;> decide

/-- Claim C6 as amended: the formatted contact message carries one phone
line per PHONE-coded custom field with at least one value — each rendering
that field's first value — and one email line per such EMAIL-coded field,
for name and first values that do not themselves contain a line marker. -/
theorem contact_phone_email_line_counts (c : Contact) (et : String)
    (hname : cleanVal (c.name.getD "Без имени"))
    (hvals : ∀ f ∈ c.custom_fields.getD [], ∀ v ∈ f.values.take 1, cleanVal v) :
    countOccur phonePat (AmoCRMHandler.format_contact_message c et).data
      = renderedCount "PHONE" (c.custom_fields.getD []) ∧
    countOccur emailPat (AmoCRMHandler.format_contact_message c et).data
      = renderedCount "EMAIL" (c.custom_fields.getD []) := by
  rcases c with ⟨cn, cf⟩
  cases cf with
  | none =>
    have h := count_contact_message et (cn.getD "Без имени") [] hname (by simp)
    simpa [AmoCRMHandler.format_contact_message] using h
  | some fields =>
    have h := count_contact_message et (cn.getD "Без имени") fields hname hvals
    simpa [AmoCRMHandler.format_contact_message] using h

/-- Witness for the amended claim C6 on the two-phone-field contact. -/
theorem contact_phone_email_line_counts_witness :
    countOccur phonePat (AmoCRMHandler.format_contact_message contactTwoPhones "new").data
      = renderedCount "PHONE" (contactTwoPhones.custom_fields.getD []) ∧
    countOccur emailPat (AmoCRMHandler.format_contact_message contactTwoPhones "new").data
      = renderedCount "EMAIL" (contactTwoPhones.custom_fields.getD []) :=
  contact_phone_email_line_counts contactTwoPhones "new" (by decide) (by decide)

end RaisWebhook
